import Mathlib

/-!
# Verification of the sentry profiling table pipeline

Shallow embedding of the data-transformation pipeline in
`static/app/views/profiling/profileDetails/components/profileDetailsTable.tsx`
and `static/app/components/profiling/profileTransactionsTable.tsx`.

JavaScript numbers are modelled as rationals (`ℚ`); a JS value that can be
`undefined` or `NaN` is modelled as `Option ℚ` (`none` = "no value").
-/

namespace Sentry

/-! ## Quantile estimator (profileDetailsTable.tsx, lines 360-370)

```js
const quantile = (arr, q) => {
  const sorted = Array.from(arr).sort((a, b) => a - b);
  const position = q * (sorted.length - 1);
  const int = Math.floor(position);
  const frac = position % 1;
  if (position === int) { return sorted[position]; }
  return sorted[int] * (1 - frac) + sorted[int + 1] * frac;
};
```
-/

/-- The copy-and-sort `Array.from(arr).sort((a, b) => a - b)`: a stable ascending numeric sort
of a copy of the input. -/
def sortAsc (l : List ℚ) : List ℚ := List.insertionSort (fun a b => a ≤ b) l

/-- JS array indexing `l[i]`: `undefined` (`none`) when `i` is negative or
at least the length. -/
def jsIndex (l : List ℚ) (i : ℤ) : Option ℚ :=
  if 0 ≤ i ∧ i.toNat < l.length then some (l.getD i.toNat 0) else none

/-- JS truncation toward zero, as used by the remainder operator `%`. -/
def jsTrunc (x : ℚ) : ℤ := if 0 ≤ x then ⌊x⌋ else ⌈x⌉

/-- The `quantile` function of `profileDetailsTable.tsx`.  `frac` is the JS
remainder `position % 1`, i.e. `position - trunc(position)`.  Arithmetic on
`undefined` yields `NaN`; both are modelled as `none`. -/
def quantile (arr : List ℚ) (q : ℚ) : Option ℚ :=
  let sorted := sortAsc arr
  let position : ℚ := q * ((sorted.length : ℚ) - 1)
  let int : ℤ := ⌊position⌋
  let frac : ℚ := position - (jsTrunc position : ℚ)
  if position = (int : ℚ) then jsIndex sorted int
  else
    match jsIndex sorted int, jsIndex sorted (int + 1) with
    | some a, some b => some (a * (1 - frac) + b * frac)
    | _, _ => none

/-- The quantile estimator as the spec words it: sort ascending, let
`position = q * (n - 1)`; if `position` is an integer return that element,
otherwise interpolate between the elements at `floor(position)` and
`floor(position) + 1` weighted by the fractional part. -/
def specQuantile (arr : List ℚ) (q : ℚ) : ℚ :=
  let s := sortAsc arr
  let position : ℚ := q * ((s.length : ℚ) - 1)
  if Int.fract position = 0 then s.getD (⌊position⌋).toNat 0
  else
    s.getD (⌊position⌋).toNat 0 * (1 - Int.fract position)
      + s.getD ((⌊position⌋).toNat + 1) 0 * Int.fract position

lemma length_sortAsc (l : List ℚ) : (sortAsc l).length = l.length :=
  (List.perm_insertionSort _ l).length_eq

lemma quantile_eq_specQuantile (arr : List ℚ) (q : ℚ)
    (hne : arr ≠ []) (h0 : 0 ≤ q) (h1 : q ≤ 1) :
    quantile arr q = some (specQuantile arr q) := by
  have hn : 1 ≤ (sortAsc arr).length := by
    rw [length_sortAsc]
    exact List.length_pos.mpr hne
  simp only [quantile, specQuantile]
  set s := sortAsc arr with hs
  set n := s.length with hndef
  set position := q * ((n : ℚ) - 1) with hposdef
  have hn1 : (0 : ℚ) ≤ (n : ℚ) - 1 := by
    have : (1 : ℚ) ≤ (n : ℚ) := by exact_mod_cast hn
    linarith
  have hpos0 : 0 ≤ position := mul_nonneg h0 hn1
  have hpos1 : position ≤ (n : ℚ) - 1 := by
    calc position = q * ((n : ℚ) - 1) := hposdef
      _ ≤ 1 * ((n : ℚ) - 1) := mul_le_mul_of_nonneg_right h1 hn1
      _ = (n : ℚ) - 1 := one_mul _
  have hfl0 : 0 ≤ ⌊position⌋ := Int.floor_nonneg.mpr hpos0
  have hfl1 : ⌊position⌋ ≤ (n : ℤ) - 1 := by
    have h := Int.floor_le_floor hpos1
    have heq : ((n : ℚ) - 1 : ℚ) = (((n : ℤ) - 1 : ℤ) : ℚ) := by push_cast; ring
    rwa [heq, Int.floor_intCast] at h
  have htoNat : (⌊position⌋).toNat < n := by omega
  have htr : jsTrunc position = ⌊position⌋ := by simp [jsTrunc, hpos0]
  have hfract : Int.fract position = position - (⌊position⌋ : ℚ) := rfl
  by_cases hint : position = ((⌊position⌋ : ℤ) : ℚ)
  · have hf0 : Int.fract position = 0 := by rw [hfract]; linarith [hint.ge, hint.le]
    rw [if_pos hint, if_pos hf0, jsIndex, if_pos ⟨hfl0, htoNat⟩]
  · have hf0 : Int.fract position ≠ 0 := by
      rw [hfract]
      intro h
      exact hint (by linarith [sub_eq_zero.mp h])
    have hlt : position < (n : ℚ) - 1 := by
      rcases lt_or_eq_of_le hpos1 with h | h
      · exact h
      · exfalso
        apply hint
        have heq : ((n : ℚ) - 1 : ℚ) = (((n : ℤ) - 1 : ℤ) : ℚ) := by push_cast; ring
        rw [h, heq, Int.floor_intCast, ← heq, ← h]
    have hfl1' : ⌊position⌋ < (n : ℤ) - 1 := by
      apply Int.floor_lt.mpr
      have heq : ((n : ℚ) - 1 : ℚ) = (((n : ℤ) - 1 : ℤ) : ℚ) := by push_cast; ring
      rwa [← heq]
    have ht1 : (⌊position⌋ + 1).toNat < n := by omega
    have ht2 : (⌊position⌋ + 1).toNat = (⌊position⌋).toNat + 1 := by omega
    rw [if_neg hint, if_neg hf0]
    rw [jsIndex, if_pos ⟨hfl0, htoNat⟩, jsIndex, if_pos ⟨by omega, ht1⟩]
    simp only [htr, ht2, ← hfract]

lemma sortAsc_singleton (x : ℚ) : sortAsc [x] = [x] := rfl

lemma quantile_singleton (x q : ℚ) : quantile [x] q = some x := by
  simp [quantile, sortAsc_singleton, jsIndex]

end Sentry

/-- C1: for every non-empty sequence and every quantile `q ∈ [0,1]`, the
`quantile` estimator returns the linearly-interpolated order statistic as the
spec describes it (`specQuantile`); in particular on `[10, 20, 30, 40]` it
returns `25` at `q = 0.5`, `32.5` at `q = 0.75` and `39.7` at `q = 0.99`, and
on a single-element sequence it returns that element for every `q`. -/
theorem C1_quantile_interpolated_order_statistic :
    (∀ (arr : List ℚ) (q : ℚ), arr ≠ [] → 0 ≤ q → q ≤ 1 →
        Sentry.quantile arr q = some (Sentry.specQuantile arr q)) ∧
    Sentry.quantile [10, 20, 30, 40] (1/2) = some 25 ∧
    Sentry.quantile [10, 20, 30, 40] (3/4) = some (65/2) ∧
    Sentry.quantile [10, 20, 30, 40] (99/100) = some (397/10) ∧
    (∀ x q : ℚ, Sentry.quantile [x] q = some x) := by
  refine ⟨Sentry.quantile_eq_specQuantile, ?_, ?_, ?_, Sentry.quantile_singleton⟩ <;>
    (norm_num [Sentry.quantile, Sentry.sortAsc, Sentry.jsIndex, Sentry.jsTrunc,
        List.insertionSort, List.orderedInsert, Int.floor_eq_iff];
      simp only [show ((2 : ℤ).toNat) = 2 from rfl, show ((3 : ℤ).toNat) = 3 from rfl];
      norm_num)

/-- C1 witness: the general refinement instantiated at `[10, 20]`, `q = 1/2`. -/
theorem C1_witness :
    Sentry.quantile [10, 20] (1/2) = some (Sentry.specQuantile [10, 20] (1/2)) :=
  C1_quantile_interpolated_order_statistic.1 [10, 20] (1/2) (by simp) (by norm_num)
    (by norm_num)

namespace Sentry

lemma jsIndex_nil (i : ℤ) : jsIndex [] i = none := by
  simp [jsIndex]

lemma quantile_nil (q : ℚ) : quantile [] q = none := by
  have hs : sortAsc [] = ([] : List ℚ) := rfl
  simp only [quantile, hs, jsIndex_nil]
  split
  · rfl
  · rfl

end Sentry

/-- C8: on an empty sequence the quantile estimator yields the "no value"
result (`none`, modelling `undefined`/`NaN`) for every quantile `q`; it never
returns `0` and, being total, never throws. -/
theorem C8_quantile_empty_no_value :
    ∀ q : ℚ, Sentry.quantile [] q = none ∧ Sentry.quantile [] q ≠ some 0 := by
  intro q
  refine ⟨Sentry.quantile_nil q, ?_⟩
  rw [Sentry.quantile_nil q]
  exact fun h => Option.noConfusion h

namespace Sentry

/-! ## Pagination (profileDetailsTable.tsx, lines 31, 53, 130)

```js
const RESULTS_PER_PAGE = 50;
const cursor = parseInt(paginationCursor, 10) || 0;
const data = sortedData.slice(cursor, cursor + RESULTS_PER_PAGE);
```
-/

/-- JS `Array.prototype.slice(start, stop)` per ECMAScript: negative indices
count from the end, both indices are clamped to `[0, length]`. -/
def jsSlice {α : Type*} (l : List α) (start stop : ℤ) : List α :=
  let len : ℤ := l.length
  let s : ℤ := if start < 0 then max (len + start) 0 else min start len
  let e : ℤ := if stop < 0 then max (len + stop) 0 else min stop len
  (l.drop s.toNat).take (e - s).toNat

def RESULTS_PER_PAGE : ℕ := 50

/-- The page of rows the table displays: `sortedData.slice(cursor, cursor + 50)`. -/
def dataPage {α : Type*} (rows : List α) (cursor : ℕ) : List α :=
  jsSlice rows cursor (cursor + RESULTS_PER_PAGE)

lemma jsSlice_start_ge {α : Type*} (l : List α) (s e : ℤ) (h0 : 0 ≤ s)
    (h : (l.length : ℤ) ≤ s) : jsSlice l s e = [] := by
  simp only [jsSlice]
  have hd : (if s < 0 then max ((l.length : ℤ) + s) 0
      else min s (l.length : ℤ)).toNat = l.length := by
    rw [if_neg (by omega)]
    omega
  rw [hd, List.drop_length, List.take_nil]

lemma jsSlice_nonneg {α : Type*} (l : List α) (s e : ℤ) (h0 : 0 ≤ s)
    (hsl : s ≤ (l.length : ℤ)) (he : 0 ≤ e) :
    jsSlice l s e = (l.drop s.toNat).take (min e (l.length : ℤ) - s).toNat := by
  simp only [jsSlice]
  rw [if_neg (by omega), if_neg (by omega), min_eq_left hsl]

/-! ## The ungrouped "occurrence" view transform (profileDetailsTable.tsx, line 417)

```js
transform: (data: any[]) => data.slice(0, 500),
```
-/

/-- A collected frame record (output of `collectProfileFrames`). -/
structure FrameRow where
  symbol : String
  image : Option String
  file : Option String
  thread : String
  type : String
  selfWeight : ℚ
  totalWeight : ℚ

def occurrenceTransform (data : List FrameRow) : List FrameRow :=
  jsSlice data 0 500

/-- A sample frame used as a concrete input. -/
def sampleFrame : FrameRow :=
  { symbol := "main", image := none, file := none, thread := "0",
    type := "function", selfWeight := 1, totalWeight := 2 }

lemma jsSlice_zero (l : List FrameRow) (e : ℤ) (he : 0 ≤ e) :
    jsSlice l 0 e = l.take e.toNat := by
  rw [jsSlice_nonneg l 0 e le_rfl (by omega) he]
  simp only [Int.toNat_zero, List.drop_zero, sub_zero]
  rcases le_or_lt e (l.length : ℤ) with h | h
  · rw [min_eq_left h]
  · rw [min_eq_right h.le]
    have h2 : ((l.length : ℤ)).toNat = l.length := by omega
    rw [h2, List.take_length]
    exact (List.take_of_length_le (by omega)).symm

/-! ## View registry (profileDetailsTable.tsx, lines 51, 410-506)

```js
const groupByView = GROUP_BY_OPTIONS[groupByViewKey] ?? GROUP_BY_OPTIONS.occurrence;
```
-/

inductive SortDir
  | asc
  | desc
deriving DecidableEq

structure SortSetting where
  key : String
  order : SortDir
deriving DecidableEq

/-- The per-view configuration record (the fields of a `GROUP_BY_OPTIONS`
entry other than the `transform` function). -/
structure ViewConfig where
  optionLabel : String
  optionValue : String
  columns : List String
  searchKey : List String
  searchPlaceholder : String
  sortableColumns : List String
  defaultSort : SortSetting
  rightAlignedColumns : List String
deriving DecidableEq

def occurrenceView : ViewConfig :=
  { optionLabel := "Slowest Functions", optionValue := "occurrence",
    columns := ["symbol", "image", "file", "thread", "type", "self weight",
      "total weight"],
    searchKey := ["symbol"], searchPlaceholder := "Search for frames",
    sortableColumns := ["self weight", "total weight"],
    defaultSort := ⟨"self weight", SortDir.desc⟩,
    rightAlignedColumns := ["self weight", "total weight"] }

def symbolView : ViewConfig :=
  { optionLabel := "Group by Symbol", optionValue := "symbol",
    columns := ["symbol", "type", "image", "p75", "p95", "count"],
    searchKey := ["symbol"], searchPlaceholder := "Search for frames",
    sortableColumns := ["p75", "p95", "count"],
    defaultSort := ⟨"p75", SortDir.desc⟩,
    rightAlignedColumns := ["p75", "p95", "count"] }

def packageView : ViewConfig :=
  { optionLabel := "Group by Package", optionValue := "package",
    columns := ["image", "type", "p75", "p95", "count"],
    searchKey := ["image"], searchPlaceholder := "Search for packages",
    sortableColumns := ["p75", "p95", "count"],
    defaultSort := ⟨"p75", SortDir.desc⟩,
    rightAlignedColumns := ["p75", "p95", "count"] }

def fileView : ViewConfig :=
  { optionLabel := "Group by File", optionValue := "file",
    columns := ["file", "type", "image", "p75", "p95", "count"],
    searchKey := ["file"], searchPlaceholder := "Search for files",
    sortableColumns := ["p75", "p95", "count"],
    defaultSort := ⟨"p75", SortDir.desc⟩,
    rightAlignedColumns := ["p75", "p95", "count"] }

/-- The string-keyed properties of `Object.prototype` (ECMA-262, including
the Annex B accessors).  A plain object literal inherits these, so a bracket
lookup with one of these keys finds a non-nullish inherited value (a function
object, or `Object.prototype` itself for the `__proto__` accessor). -/
def OBJECT_PROTOTYPE_KEYS : List String :=
  ["constructor", "hasOwnProperty", "isPrototypeOf", "propertyIsEnumerable",
    "toLocaleString", "toString", "valueOf", "__proto__", "__defineGetter__",
    "__defineSetter__", "__lookupGetter__", "__lookupSetter__"]

/-- The possible results of the JS property lookup `GROUP_BY_OPTIONS[key]`:
one of the four own view entries, a non-nullish member inherited from
`Object.prototype`, or `undefined`. -/
inductive JsProp
  | view (v : ViewConfig)
  | protoMember
  | undef
deriving DecidableEq

/-- The lookup `GROUP_BY_OPTIONS[key]`: an own property (one of the four view
entries) when there is one, otherwise the lookup walks the prototype chain
and finds the inherited `Object.prototype` member for its property names;
only the remaining keys yield `undefined`. -/
def GROUP_BY_OPTIONS (key : String) : JsProp :=
  if key = "occurrence" then JsProp.view occurrenceView
  else if key = "symbol" then JsProp.view symbolView
  else if key = "package" then JsProp.view packageView
  else if key = "file" then JsProp.view fileView
  else if OBJECT_PROTOTYPE_KEYS.contains key then JsProp.protoMember
  else JsProp.undef

/-- View resolution, `GROUP_BY_OPTIONS[groupByViewKey] ?? GROUP_BY_OPTIONS.occurrence`:
the `??` operator falls back only when the left side is `undefined` (or
`null`), not for a non-nullish inherited member. -/
def groupByView (key : String) : JsProp :=
  match GROUP_BY_OPTIONS key with
  | JsProp.undef => JsProp.view occurrenceView
  | v => v

lemma dataPage_eq {α : Type*} (rows : List α) (c : ℕ) (hc : c ≤ rows.length) :
    dataPage rows c = (rows.drop c).take RESULTS_PER_PAGE := by
  rw [dataPage, jsSlice_nonneg rows _ _ (by omega) (by exact_mod_cast hc) (by omega)]
  simp only [RESULTS_PER_PAGE]
  have hcn : ((c : ℤ)).toNat = c := by omega
  rw [hcn]
  push_cast
  rcases le_or_lt ((c : ℤ) + 50) (rows.length : ℤ) with h | h
  · rw [min_eq_left h]
    congr 1
    omega
  · rw [min_eq_right h.le]
    have h1 : ((rows.length : ℤ) - (c : ℤ)).toNat = rows.length - c := by omega
    rw [h1]
    have e1 : (rows.drop c).take (rows.length - c) = rows.drop c :=
      List.take_of_length_le (by simp)
    have e2 : (rows.drop c).take 50 = rows.drop c :=
      List.take_of_length_le (by simp; omega)
    rw [e1, e2]

end Sentry

/-- C2 counterexample: with 120 rows and cursor 200 the displayed page is
empty — it is not the last page `[70,120)` the claim requires. -/
theorem C2_counterexample :
    Sentry.dataPage (List.range 120) 200 = [] ∧
    Sentry.dataPage (List.range 120) 200 ≠ (List.range 120).drop 70 := by
  have h1 : Sentry.dataPage (List.range 120) 200 = [] :=
    Sentry.jsSlice_start_ge _ _ _ (by omega) (by norm_num)
  refine ⟨h1, ?_⟩
  rw [h1]
  intro hcontra
  have hlen := congrArg List.length hcontra
  simp at hlen

/-- C2 amended: the pager does not clamp an out-of-range cursor; a cursor at
or beyond the row count produces an empty page, while an in-range cursor
returns the rows `[cursor, cursor + 50)` — concretely, with 120 rows, cursor
100 returns rows `[100,120)` and cursor 200 returns the empty page. -/
theorem C2_pager_out_of_range_empty :
    (∀ (rows : List ℕ) (c : ℕ), rows.length ≤ c → Sentry.dataPage rows c = []) ∧
    Sentry.dataPage (List.range 120) 100 = (List.range 120).drop 100 ∧
    Sentry.dataPage (List.range 120) 200 = [] := by
  refine ⟨?_, ?_, ?_⟩
  · intro rows c hc
    exact Sentry.jsSlice_start_ge _ _ _ (by omega) (by exact_mod_cast hc)
  · rw [Sentry.dataPage_eq _ _ (by norm_num)]
    exact List.take_of_length_le (by norm_num [Sentry.RESULTS_PER_PAGE])
  · exact Sentry.jsSlice_start_ge _ _ _ (by omega) (by norm_num)

/-- C2 witness: the general out-of-range case instantiated at two rows and
cursor 5. -/
theorem C2_witness : Sentry.dataPage [7, 9] 5 = [] :=
  C2_pager_out_of_range_empty.1 [7, 9] 5 (by norm_num)

/-- C3 counterexample: on 501 collected frames the occurrence view keeps only
500 rows, so its row count differs from the number of collected frames. -/
theorem C3_counterexample :
    (Sentry.occurrenceTransform (List.replicate 501 Sentry.sampleFrame)).length ≠
      (List.replicate 501 Sentry.sampleFrame).length := by
  rw [Sentry.occurrenceTransform, Sentry.jsSlice_zero _ 500 (by omega)]
  simp only [List.length_take, List.length_replicate,
    show ((500 : ℤ)).toNat = 500 from rfl]
  omega

/-- C3 amended: the occurrence view's transform is `data.slice(0, 500)`: it
keeps the first 500 collected frames in order (all of them when there are at
most 500), with no deduplication, so its row count is the minimum of the
number of collected frames and 500. -/
theorem C3_occurrence_keeps_first_500 :
    ∀ data : List Sentry.FrameRow,
      Sentry.occurrenceTransform data = data.take 500 ∧
      (Sentry.occurrenceTransform data).length = min data.length 500 := by
  intro data
  have h : Sentry.occurrenceTransform data = data.take 500 := by
    rw [Sentry.occurrenceTransform, Sentry.jsSlice_zero data 500 (by omega),
      show ((500 : ℤ)).toNat = 500 from rfl]
  refine ⟨h, ?_⟩
  rw [h, List.length_take]
  omega

/-- C10 counterexample: "toString" is not a key of the view registry, yet
resolution does not fall back to the occurrence view — the bracket lookup
finds the inherited `Object.prototype.toString`, which is non-nullish, so
`??` never fires. -/
theorem C10_counterexample :
    "toString" ∉ ["occurrence", "symbol", "package", "file"] ∧
    Sentry.groupByView "toString" ≠ Sentry.JsProp.view Sentry.occurrenceView := by
  decide

/-- C10 amended: resolving a view name that is neither a registry key nor an
`Object.prototype` property name falls back to the default ungrouped
occurrence view; for an `Object.prototype` property name the inherited
non-nullish member defeats the `??` fallback and resolution yields that
member, not a view config; resolving each known view name returns that
view's config. -/
theorem C10_unknown_view_fallback_except_proto_keys :
    (∀ k : String, k ∉ ["occurrence", "symbol", "package", "file"] →
        Sentry.OBJECT_PROTOTYPE_KEYS.contains k = false →
        Sentry.groupByView k = Sentry.JsProp.view Sentry.occurrenceView) ∧
    (∀ k : String, k ∉ ["occurrence", "symbol", "package", "file"] →
        Sentry.OBJECT_PROTOTYPE_KEYS.contains k = true →
        Sentry.groupByView k = Sentry.JsProp.protoMember) ∧
    Sentry.groupByView "occurrence" = Sentry.JsProp.view Sentry.occurrenceView ∧
    Sentry.groupByView "symbol" = Sentry.JsProp.view Sentry.symbolView ∧
    Sentry.groupByView "package" = Sentry.JsProp.view Sentry.packageView ∧
    Sentry.groupByView "file" = Sentry.JsProp.view Sentry.fileView := by
  refine ⟨?_, ?_, rfl, rfl, rfl, rfl⟩ <;>
  · intro k hk hp
    simp only [List.mem_cons, List.not_mem_nil, or_false, not_or] at hk
    simp at hp
    obtain ⟨h1, h2, h3, h4⟩ := hk
    simp [Sentry.groupByView, Sentry.GROUP_BY_OPTIONS, h1, h2, h3, h4, hp]

/-- C10 witness: the fallback at the plain unknown name "zzz" and the
prototype leak at "toString". -/
theorem C10_witness :
    Sentry.groupByView "zzz" = Sentry.JsProp.view Sentry.occurrenceView ∧
    Sentry.groupByView "toString" = Sentry.JsProp.protoMember :=
  ⟨C10_unknown_view_fallback_except_proto_keys.1 "zzz" (by decide) (by decide),
    C10_unknown_view_fallback_except_proto_keys.2.1 "toString" (by decide) (by decide)⟩

namespace Sentry

/-! ## The sort stage and array identity (profileDetailsTable.tsx, lines 118-126)

```js
const filteredData = useMemo(() => filteredDataBySearch.filter(filterPredicate), ...);
const sortedData = useMemo(() => filteredData.sort(sortCompareFn), ...);
```

`Array.prototype.filter` allocates a fresh array; `Array.prototype.sort`
sorts the receiver **in place** and returns a reference to that same array.
To talk about mutation and object identity, arrays are modelled as cells of
a small heap addressed by naturals, and `sort` as a heap transformer that
returns the reference it was called on. -/

structure Heap (α : Type*) where
  cells : List (List α)

def Heap.read {α : Type*} (h : Heap α) (r : ℕ) : List α := h.cells.getD r []

def Heap.write {α : Type*} (h : Heap α) (r : ℕ) (v : List α) : Heap α :=
  ⟨h.cells.set r v⟩

/-- JS `arr.sort(cmp)` for a comparator `cmp` (negative result means the
first argument sorts first): stable-sorts the array referenced by `r` in
place and returns a reference to the same array. -/
def jsSortCall {α : Type*} (cmp : α → α → ℤ) (h : Heap α) (r : ℕ) : Heap α × ℕ :=
  (h.write r (List.insertionSort (fun a b => cmp a b ≤ 0) (h.read r)), r)

/-- A descending numeric comparator, `(a, b) => b - a`, as the sort engine
produces for a numeric column sorted descending. -/
def descCmp : ℤ → ℤ → ℤ := fun a b => b - a

lemma Heap.read_write {α : Type*} (h : Heap α) (r : ℕ) (v : List α)
    (hr : r < h.cells.length) : (h.write r v).read r = v := by
  simp [Heap.read, Heap.write, List.getD, List.getElem?_set_self, hr]

/-! ## Sort request handling (profileTransactionsTable.tsx, lines 35-52)

```js
let column = decodeScalar(props.sort, '-count()');
let order: 'asc' | 'desc' = 'asc' as const;
if (column.startsWith('-')) {
  column = column.substring(1);
  order = 'desc' as const;
}
if (!SORTABLE_COLUMNS.has(column as any)) {
  column = 'count()';
}
return {key: column, order};
```
-/

def SORTABLE_COLUMNS : List String :=
  ["project", "transaction", "count()", "p50()", "p75()", "p90()", "p95()",
    "p99()", "last_seen()"]

/-- The test `column.startsWith('-')`, via the string's character list. -/
def startsWithDash (s : String) : Bool :=
  match s.data with
  | [] => false
  | c :: _ => c = '-'

/-- The tail `column.substring(1)`, via the string's character list. -/
def substringFrom1 (s : String) : String := String.mk (s.data.drop 1)

/-- Modelled from the spec: `decodeScalar(value, fallback)` (module
`sentry/utils/queryString` is not among the sources).  Per the spec's
external-interface section, an empty or absent sort parameter means "use the
view's default". -/
def decodeScalar (v : Option String) (fallback : String) : String :=
  match v with
  | none => fallback
  | some s => if s = "" then fallback else s

/-- The `sort` memo of `ProfileTransactionsTable`. -/
def transactionsSort (propsSort : Option String) : String × SortDir :=
  let column := decodeScalar propsSort "-count()"
  let p : String × SortDir :=
    if startsWithDash column then (substringFrom1 column, SortDir.desc)
    else (column, SortDir.asc)
  if SORTABLE_COLUMNS.contains p.1 then p else ("count()", p.2)

/-! ## View selection handler (profileDetailsTable.tsx, lines 142-146)

```js
onChange={option => {
  setSearchQuery('');
  setPaginationCursor(undefined);
  setGroupByView(option.value);
}}
```
-/

/-- The querystring-backed state of the details page: the active view key,
the search query, the pagination cursor and the `type`/`image` filter
selections, plus the sort parameter (querystring key `functionsSort`). -/
structure DetailsPageState where
  detailView : String
  query : String
  cursor : Option String
  typeFilter : Option (List String)
  imageFilter : Option (List String)
  functionsSort : Option String
deriving DecidableEq

/-- The view-select `onChange` handler: it clears the search query, clears
the pagination cursor and stores the new view key — nothing else. -/
def onViewChange (s : DetailsPageState) (v : String) : DetailsPageState :=
  { s with query := "", cursor := none, detailView := v }

/-- A state with a non-default filter selection and a non-default sort. -/
def dirtyState : DetailsPageState :=
  { detailView := "occurrence", query := "append", cursor := some "50",
    typeFilter := some ["objc"], imageFilter := some ["libsystem"],
    functionsSort := some "-count" }

/-! ## Column filters (profileDetailsTable.tsx, lines 84-90 and 118-121) -/

/-- The active filter selections for the two filterable columns. -/
structure FilterState where
  typeSel : Option (List String)
  imageSel : Option (List String)

/-- JS membership of a possibly-undefined value in a string array:
`selection.includes(row[column])`; `undefined` is never a member. -/
def selMember (sel : List String) (v : Option String) : Bool :=
  match v with
  | some x => sel.contains x
  | none => false

/-- Modelled from the spec: one column of the predicate built by the
`useColumnFilters` hook (file
`static/app/views/profiling/profileDetails/hooks/useColumnFilters.tsx` is not
among the sources).  Spec §4.6: "row passes iff, for every filterable column
with a non-empty active selection, `row[column] ∈ selection`. Columns with an
empty/unset selection impose no constraint (treated as all)." -/
def columnPasses (selOpt : Option (List String)) (v : Option String) : Bool :=
  match selOpt with
  | none => true
  | some [] => true
  | some sel => selMember sel v

/-- Modelled from the spec: the `filterPredicate` applied by `filteredData`
(`filteredDataBySearch.filter(filterPredicate)`), over the declared
filterable columns `['type', 'image']`. -/
def filterPredicate (f : FilterState) (row : FrameRow) : Bool :=
  columnPasses f.typeSel (some row.type) && columnPasses f.imageSel row.image

lemma columnPasses_iff (selOpt : Option (List String)) (v : Option String) :
    columnPasses selOpt v = true ↔
      ∀ sel, selOpt = some sel → sel ≠ [] → ∃ x, v = some x ∧ x ∈ sel := by
  rcases selOpt with _ | sel
  · simp [columnPasses]
  · rcases sel with _ | ⟨a, rest⟩
    · simp [columnPasses]
    · rcases v with _ | x
      · simp [columnPasses, selMember]
      · simp [columnPasses, selMember]

/-! ## Aggregate columns (profileDetailsTable.tsx, lines 372-385)

```js
const p75AggregateColumn = {key: 'p75', compute: rows => quantile(rows.map(v => v['self weight']), 0.75)};
const p95AggregateColumn = {key: 'p95', compute: rows => quantile(rows.map(v => v['self weight']), 0.95)};
const countAggregateColumn = {key: 'count', compute: rows => rows.length};
```
-/

def p75Compute (rows : List FrameRow) : Option ℚ :=
  quantile (rows.map fun v => v.selfWeight) (3/4)

def p95Compute (rows : List FrameRow) : Option ℚ :=
  quantile (rows.map fun v => v.selfWeight) (19/20)

def countCompute (rows : List FrameRow) : ℕ := rows.length

lemma sortAsc_perm_eq {l l' : List ℚ} (h : List.Perm l l') :
    sortAsc l = sortAsc l' :=
  List.eq_of_perm_of_sorted
    ((List.perm_insertionSort _ l).trans (h.trans (List.perm_insertionSort _ l').symm))
    (List.sorted_insertionSort _ l) (List.sorted_insertionSort _ l')

lemma quantile_perm {l l' : List ℚ} (h : List.Perm l l') (q : ℚ) :
    quantile l q = quantile l' q := by
  simp only [quantile, sortAsc_perm_eq h]

/-- A second sample frame with a different self weight. -/
def sampleFrame2 : FrameRow :=
  { symbol := "work", image := some "libsystem", file := some "work.c",
    thread := "1", type := "function", selfWeight := 3, totalWeight := 5 }

end Sentry

/-- C4 counterexample: calling `sort` with a descending comparator on the
heap cell holding the unsorted filter output `[1, 2]` leaves that very cell
holding `[2, 1]` — the filter stage's sequence was mutated in place. -/
theorem C4_counterexample :
    ((Sentry.jsSortCall Sentry.descCmp ⟨[[(1 : ℤ), 2]]⟩ 0).1).read 0 ≠
      (Sentry.Heap.mk [[(1 : ℤ), 2]]).read 0 := by
  decide

/-- C4 amended: the sort stage (`filteredData.sort(sortCompareFn)`) sorts the
filter stage's array in place and returns a reference to that same array: the
returned reference is the input reference, the cell's new contents are a
permutation of (namely, the comparator-sort of) its old contents, and the
cell is left unchanged only when its contents were already sorted. -/
theorem C4_sort_stage_mutates_in_place :
    ∀ (cmp : ℤ → ℤ → ℤ) (h : Sentry.Heap ℤ) (r : ℕ), r < h.cells.length →
      (Sentry.jsSortCall cmp h r).2 = r ∧
      (((Sentry.jsSortCall cmp h r).1).read r).Perm (h.read r) ∧
      (((Sentry.jsSortCall cmp h r).1).read r = h.read r ↔
        h.read r = List.insertionSort (fun a b => cmp a b ≤ 0) (h.read r)) := by
  intro cmp h r hr
  have hw : ((Sentry.jsSortCall cmp h r).1).read r =
      List.insertionSort (fun a b => cmp a b ≤ 0) (h.read r) :=
    Sentry.Heap.read_write h r _ hr
  refine ⟨rfl, ?_, ?_⟩
  · rw [hw]
    exact List.perm_insertionSort _ _
  · rw [hw]
    exact ⟨fun h1 => h1.symm, fun h1 => h1.symm⟩

/-- C4 witness: the amended statement instantiated at the descending
comparator, a one-cell heap holding `[1, 2]`, and reference 0. -/
theorem C4_witness :
    (Sentry.jsSortCall Sentry.descCmp ⟨[[(1 : ℤ), 2]]⟩ 0).2 = 0 ∧
    (((Sentry.jsSortCall Sentry.descCmp ⟨[[(1 : ℤ), 2]]⟩ 0).1).read 0).Perm
      ((Sentry.Heap.mk [[(1 : ℤ), 2]]).read 0) ∧
    (((Sentry.jsSortCall Sentry.descCmp ⟨[[(1 : ℤ), 2]]⟩ 0).1).read 0 =
        (Sentry.Heap.mk [[(1 : ℤ), 2]]).read 0 ↔
      (Sentry.Heap.mk [[(1 : ℤ), 2]]).read 0 =
        List.insertionSort (fun a b => Sentry.descCmp a b ≤ 0)
          ((Sentry.Heap.mk [[(1 : ℤ), 2]]).read 0)) :=
  C4_sort_stage_mutates_in_place Sentry.descCmp ⟨[[(1 : ℤ), 2]]⟩ 0 (by decide)

/-- C5 counterexample: the sort request "foo" names an unknown column; the
effective sort is `count()` ascending, not the view's default `count()`
descending — the default direction does not apply. -/
theorem C5_counterexample :
    Sentry.transactionsSort (some "foo") = ("count()", Sentry.SortDir.asc) ∧
    Sentry.transactionsSort (some "foo") ≠ ("count()", Sentry.SortDir.desc) := by
  constructor <;> decide

/-- C5 amended: a sort request naming an unknown or non-sortable column falls
back to the default sort column `count()`, but the requested direction is
kept: a request with a leading `-` stays descending and one without stays
ascending; only an absent sort parameter yields the full default
`count()` descending. -/
theorem C5_unknown_sort_column_keeps_direction :
    (∀ s : String, s ≠ "" →
      Sentry.SORTABLE_COLUMNS.contains
        (if Sentry.startsWithDash s then Sentry.substringFrom1 s else s) = false →
      Sentry.transactionsSort (some s) =
        ("count()",
          if Sentry.startsWithDash s then Sentry.SortDir.desc
          else Sentry.SortDir.asc)) ∧
    Sentry.transactionsSort none = ("count()", Sentry.SortDir.desc) := by
  constructor
  · intro s hne hcol
    simp only [Sentry.transactionsSort, Sentry.decodeScalar, if_neg hne]
    by_cases hs : Sentry.startsWithDash s
    · rw [if_pos hs] at hcol ⊢
      simp only [if_pos hs, hcol, Bool.false_eq_true, if_false]
    · rw [if_neg hs] at hcol ⊢
      simp only [if_neg hs, hcol, Bool.false_eq_true, if_false]
  · decide

/-- C5 witness: the fallback instantiated at the unknown column "foo". -/
theorem C5_witness :
    Sentry.transactionsSort (some "foo") =
      ("count()",
        if Sentry.startsWithDash "foo" then Sentry.SortDir.desc
        else Sentry.SortDir.asc) :=
  C5_unknown_sort_column_keeps_direction.1 "foo" (by decide) (by decide)

/-- C6 counterexample: switching from a state with an active `type` filter,
an active `image` filter and a non-default sort to the "symbol" view leaves
all three untouched — they are not reset to the new view's defaults. -/
theorem C6_counterexample :
    (Sentry.onViewChange Sentry.dirtyState "symbol").typeFilter ≠ none ∧
    (Sentry.onViewChange Sentry.dirtyState "symbol").imageFilter ≠ none ∧
    (Sentry.onViewChange Sentry.dirtyState "symbol").functionsSort ≠ none := by
  refine ⟨?_, ?_, ?_⟩ <;> decide

/-- C6 amended: selecting a view resets only the search query (to `""`) and
the pagination cursor (to unset); the column filter selections and the sort
parameter are carried over unchanged. -/
theorem C6_view_change_resets_query_and_cursor_only :
    ∀ (s : Sentry.DetailsPageState) (v : String),
      (Sentry.onViewChange s v).detailView = v ∧
      (Sentry.onViewChange s v).query = "" ∧
      (Sentry.onViewChange s v).cursor = none ∧
      (Sentry.onViewChange s v).typeFilter = s.typeFilter ∧
      (Sentry.onViewChange s v).imageFilter = s.imageFilter ∧
      (Sentry.onViewChange s v).functionsSort = s.functionsSort :=
  fun _ _ => ⟨rfl, rfl, rfl, rfl, rfl, rfl⟩

/-- C7: the column filter predicate accepts a row iff, for every filterable
column (`type`, `image`) whose active selection is non-empty, the row's value
for that column is a member of the selection; an empty or unset selection
imposes no constraint, so with an empty `type` selection (and no `image`
selection) every row passes regardless of its `image` value. -/
theorem C7_filter_predicate_semantics :
    (∀ (f : Sentry.FilterState) (row : Sentry.FrameRow),
      Sentry.filterPredicate f row = true ↔
        ((∀ sel, f.typeSel = some sel → sel ≠ [] → row.type ∈ sel) ∧
         (∀ sel, f.imageSel = some sel → sel ≠ [] →
           ∃ img, row.image = some img ∧ img ∈ sel))) ∧
    (∀ row : Sentry.FrameRow,
      Sentry.filterPredicate ⟨some [], none⟩ row = true) := by
  constructor
  · intro f row
    simp only [Sentry.filterPredicate, Bool.and_eq_true,
      Sentry.columnPasses_iff]
    constructor
    · rintro ⟨h1, h2⟩
      refine ⟨fun sel hsel hne => ?_, h2⟩
      obtain ⟨x, hx, hmem⟩ := h1 sel hsel hne
      exact (Option.some_inj.mp hx) ▸ hmem
    · rintro ⟨h1, h2⟩
      refine ⟨fun sel hsel hne => ⟨row.type, rfl, h1 sel hsel hne⟩, h2⟩
  · intro row
    simp [Sentry.filterPredicate, Sentry.columnPasses]

/-- C9: the aggregate computations are order-independent — permuting a group
of frames changes neither `p75`, `p95` nor `count` — and the count aggregate
equals the number of frames in the group. -/
theorem C9_aggregates_order_independent :
    ∀ g g' : List Sentry.FrameRow, List.Perm g g' →
      Sentry.p75Compute g = Sentry.p75Compute g' ∧
      Sentry.p95Compute g = Sentry.p95Compute g' ∧
      Sentry.countCompute g = Sentry.countCompute g' ∧
      Sentry.countCompute g = g.length := by
  intro g g' h
  have hm : List.Perm (g.map fun v => v.selfWeight) (g'.map fun v => v.selfWeight) :=
    h.map _
  exact ⟨Sentry.quantile_perm hm _, Sentry.quantile_perm hm _, h.length_eq, rfl⟩

/-- C9 witness: order-independence instantiated at a two-frame group and its
transposition. -/
theorem C9_witness :
    Sentry.p75Compute [Sentry.sampleFrame, Sentry.sampleFrame2] =
      Sentry.p75Compute [Sentry.sampleFrame2, Sentry.sampleFrame] ∧
    Sentry.p95Compute [Sentry.sampleFrame, Sentry.sampleFrame2] =
      Sentry.p95Compute [Sentry.sampleFrame2, Sentry.sampleFrame] ∧
    Sentry.countCompute [Sentry.sampleFrame, Sentry.sampleFrame2] =
      Sentry.countCompute [Sentry.sampleFrame2, Sentry.sampleFrame] ∧
    Sentry.countCompute [Sentry.sampleFrame, Sentry.sampleFrame2] =
      [Sentry.sampleFrame, Sentry.sampleFrame2].length :=
  C9_aggregates_order_independent [Sentry.sampleFrame, Sentry.sampleFrame2]
    [Sentry.sampleFrame2, Sentry.sampleFrame]
    (List.Perm.swap Sentry.sampleFrame2 Sentry.sampleFrame [])


